import Mathlib

/-!
Shallow embedding of the beatsaver-rs client library (pagination adapter,
rate-limit classifier, identifier parsing and validation, user record), with
theorems checking the natural-language specification against the code.

Conventions of the embedding:
* Rust `Result<A, E>` is `Except E A`; `Option<T>` is `Option T`.
* Rust `usize`/`u64` values are `Nat` with explicit `< 2^64` bounds where the
  source can overflow; `i64` values are `Int` with explicit wrapping.
* `bytes::Bytes` is `List Nat` (byte values).
* The per-page fetch closure captured by the iterators is an explicit
  function argument `fetch : Nat → Except ε (Page α)`, where `ε` stands for
  the whole `BeatSaverApiError<E>` of the source (the `e.into()` applied on
  the error path is the identity conversion `BeatSaverApiError<E> →
  BeatSaverApiError<E>`).
* Rust loops that can run as long as the upstream API feeds pages are
  modelled with a fuel parameter; fuel is consumed exactly when the fetch
  function is invoked, so the fuel spent counts fetch invocations.
-/

namespace BeatSaverRs

/-- Page metadata for APIs that paginate results, from `src/lib.rs`
(`struct Page<T>`). `docs` is the `VecDeque<T>` drained front to back. -/
structure Page (α : Type) where
  docs : List α
  total_docs : Nat
  last_page : Nat
  prev_page : Option Nat
  next_page : Option Nat
deriving DecidableEq

/-- Result of one call to the sync iterator's `next`: an item was yielded
(`Some(item)` in Rust), the iterator reported exhaustion (`None` in Rust), or
the fuel bounding the `while` loop ran out (the Rust loop would still be
fetching). -/
inductive NextRes (α ε : Type) where
  | item (r : Except ε α)
  | done
  | fuelOut

/-- One call of `<PageIterator as Iterator>::next` from
`src/sync_api/mod.rs` lines 31-47, with the captured closure passed as
`fetch`. The Rust `while self.curr.docs.is_empty()` loop performs one fetch
per iteration; `fuel` bounds those iterations and one unit of fuel is spent
exactly when `fetch` is invoked. The returned triple is (yielded result,
remaining fuel, updated `self.curr`). On a fetch error the source returns
`Some(Err(e))` without touching `self.curr`. -/
def PageIterator.next (fetch : Nat → Except ε (Page α)) :
    Nat → Page α → NextRes α ε × Nat × Page α
  | fuel, ⟨d :: rest, t, l, pp, np⟩ => (.item (.ok d), fuel, ⟨rest, t, l, pp, np⟩)
  | fuel, ⟨[], t, l, pp, none⟩ => (.done, fuel, ⟨[], t, l, pp, none⟩)
  | 0, ⟨[], t, l, pp, some n⟩ => (.fuelOut, 0, ⟨[], t, l, pp, some n⟩)
  | f + 1, ⟨[], t, l, pp, some n⟩ =>
    match fetch n with
    | .ok p => PageIterator.next fetch f p
    | .error e => (.item (.error e), f, ⟨[], t, l, pp, some n⟩)

/-- The sequence observed by a consumer that keeps calling
`PageIterator::next` until the iterator reports the end (or the fuel bound
on fetches is hit): the direct unfolding of the iterator's loop. The
equation for each case matches the corresponding path of
`src/sync_api/mod.rs` lines 31-47; `syncSeq_eq_next` below proves this equal
to pulling `PageIterator.next` one call at a time. -/
def syncSeq (fetch : Nat → Except ε (Page α)) : Nat → Page α → List (Except ε α)
  | fuel, ⟨d :: rest, t, l, pp, np⟩ => .ok d :: syncSeq fetch fuel ⟨rest, t, l, pp, np⟩
  | _, ⟨[], _, _, _, none⟩ => []
  | 0, ⟨[], _, _, _, some _⟩ => []
  | f + 1, ⟨[], t, l, pp, some n⟩ =>
    match fetch n with
    | .ok p => syncSeq fetch f p
    | .error e => .error e :: syncSeq fetch f ⟨[], t, l, pp, some n⟩
termination_by fuel page => (fuel, page.docs.length)

/-- The closure passed to `stream::unfold` in `iterate_page`
(`src/async_api/mod.rs` lines 25-43): from the current state (the page
number to fetch, `None` when the stream is finished) produce the chunk of
stream elements and the next state. On success the chunk is the page's docs
mapped to `Ok` and the next state is `p.next_page`; on a fetch error the
chunk is the single error element and the next state is `Some(n)` again. -/
def iterate_pageStep (fetch : Nat → Except ε (Page α)) :
    Option Nat → Option (List (Except ε α) × Option Nat)
  | some n =>
    match fetch n with
    | .ok p => some (p.docs.map .ok, p.next_page)
    | .error e => some ([.error e], some n)
  | none => none

/-- The flattened stream built by `iterate_page` (`src/async_api/mod.rs`
lines 12-46): `stream::unfold` iterated `fuel` times and the emitted chunks
concatenated, exactly what `.flatten()` exposes to the consumer. One unit of
fuel is one unfold step, i.e. at most one fetch. -/
def iterate_pageSeq (fetch : Nat → Except ε (Page α)) :
    Nat → Option Nat → List (Except ε α)
  | 0, _ => []
  | f + 1, st =>
    match iterate_pageStep fetch st with
    | none => []
    | some (chunk, st') => chunk ++ iterate_pageSeq fetch f st'

/-- The placeholder page built by `maps_by_page_iter`, `maps_hot_page_iter`,
`search_page_iter`, … (`src/sync_api/mod.rs` lines 106-112 and the other
`*_page_iter` methods): empty docs and `next_page = Some(page)`, so the
first pull fetches the requested start page. -/
def startPage (α : Type) (page : Nat) : Page α :=
  ⟨[], 0, 0, none, some page⟩

/-- A finite, error-free chain of pages: starting the fetch at page `n`
succeeds at every step and reaches a page with `next_page = None` within
`fuel` fetches. Returns the fetched pages in fetch order. -/
def fetchChain (fetch : Nat → Except ε (Page α)) : Nat → Nat → Option (List (Page α))
  | 0, _ => none
  | f + 1, n =>
    match fetch n with
    | .error _ => none
    | .ok p =>
      match p.next_page with
      | none => some [p]
      | some m => (fetchChain fetch f m).map (p :: ·)

/-- Model of chrono `DateTime<Utc>` as produced by `DateTimeVisitor::from`
(`src/lib.rs` lines 93-103): seconds and nanoseconds of the decoded instant. -/
structure DateTimeUtc where
  secs : Int
  nanos : Nat
deriving DecidableEq

/-- `std::time::Duration` restricted to what `DurationVisitor` builds with
`Duration::from_millis` (`src/lib.rs` line 136). -/
structure Duration where
  millis : Nat
deriving DecidableEq

/-- `DateTimeVisitor::from` (`src/lib.rs` lines 94-103): from a millisecond
timestamp `ts : i64`, seconds are `ts / 1000` (i64 division truncates toward
zero) and nanoseconds are `((ts % 1000) as u32) * 1_000_000` (the cast and
the product wrap at 2^32). -/
def DateTimeVisitor.fromMillis (ts : Int) : DateTimeUtc :=
  ⟨ts.tdiv 1000, (((ts.tmod 1000).emod (2 ^ 32)).toNat * 1000000) % 2 ^ 32⟩

/-- `BeatSaverRateLimit` from `src/lib.rs` lines 165-174. -/
structure BeatSaverRateLimit where
  reset : DateTimeUtc
  reset_after : Duration
deriving DecidableEq

/-- `BeatSaverApiError<T>` from `src/lib.rs` lines 264-279. The payloads of
`SerializeError` (a serde_json::Error), `Utf8Error` (a FromUtf8Error) and
`IoError` live in external crates and no claim inspects them, so they are
dropped. -/
inductive BeatSaverApiError (ε : Type) where
  | RequestError (e : ε)
  | SerializeError
  | ArgumentError (arg : String)
  | Utf8Error
  | IoError
  | RateLimitError (limit : BeatSaverRateLimit)
deriving DecidableEq

/-- Whether a byte is a UTF-8 continuation byte (0x80-0xBF). -/
def isCont (b : Nat) : Bool := 0x80 ≤ b && b ≤ 0xBF

/-- Strict UTF-8 decoder modelling the validation `String::from_utf8`
performs on the body bytes (used by `rate_limit` and `request`): rejects
overlong forms, surrogates and scalars beyond U+10FFFF; returns the decoded
scalar values. -/
def utf8Decode : List Nat → Option (List Nat)
  | [] => some []
  | b0 :: rest =>
    if b0 ≤ 0x7F then
      (utf8Decode rest).map (b0 :: ·)
    else
      match rest with
      | b1 :: rest1 =>
        if 0xC2 ≤ b0 && b0 ≤ 0xDF && isCont b1 then
          (utf8Decode rest1).map (((b0 - 0xC0) * 0x40 + (b1 - 0x80)) :: ·)
        else
          match rest1 with
          | b2 :: rest2 =>
            if (b0 == 0xE0 && (0xA0 ≤ b1 && b1 ≤ 0xBF) ||
                0xE1 ≤ b0 && b0 ≤ 0xEC && isCont b1 ||
                b0 == 0xED && (0x80 ≤ b1 && b1 ≤ 0x9F) ||
                0xEE ≤ b0 && b0 ≤ 0xEF && isCont b1) && isCont b2 then
              (utf8Decode rest2).map
                (((b0 - 0xE0) * 0x1000 + (b1 - 0x80) * 0x40 + (b2 - 0x80)) :: ·)
            else
              match rest2 with
              | b3 :: rest3 =>
                if (b0 == 0xF0 && (0x90 ≤ b1 && b1 ≤ 0xBF) ||
                    0xF1 ≤ b0 && b0 ≤ 0xF3 && isCont b1 ||
                    b0 == 0xF4 && (0x80 ≤ b1 && b1 ≤ 0x8F)) && isCont b2 && isCont b3 then
                  (utf8Decode rest3).map
                    (((b0 - 0xF0) * 0x40000 + (b1 - 0x80) * 0x1000 +
                      (b2 - 0x80) * 0x40 + (b3 - 0x80)) :: ·)
                else none
              | [] => none
          | [] => none
      | [] => none

/-- JSON whitespace. -/
def isJsonWs (c : Nat) : Bool := c == 0x20 || c == 0x09 || c == 0x0A || c == 0x0D

def skipWs : List Nat → List Nat
  | c :: rest => if isJsonWs c then skipWs rest else c :: rest
  | [] => []

/-- Parse the body of a JSON string literal up to the closing quote; escape
sequences are rejected (the rate-limit keys never contain them). Returns the
key's codepoints and the remainder after the closing quote. -/
def parseKey : List Nat → Option (List Nat × List Nat)
  | 0x22 :: rest => some ([], rest)
  | c :: rest =>
    if c == 0x5C then none else (parseKey rest).map (fun r => (c :: r.1, r.2))
  | [] => none

def digitVal (c : Nat) : Option Nat :=
  if 0x30 ≤ c && c ≤ 0x39 then some (c - 0x30) else none

def parseNatLoop (acc : Nat) : List Nat → Nat × List Nat
  | c :: rest =>
    match digitVal c with
    | some d => parseNatLoop (acc * 10 + d) rest
    | none => (acc, c :: rest)
  | [] => (acc, [])

/-- Parse a JSON integer (optional minus sign, decimal digits). -/
def parseInt : List Nat → Option (Int × List Nat)
  | 0x2D :: c :: rest =>
    match digitVal c with
    | some d =>
      match parseNatLoop d rest with
      | (v, r) => some (-(v : Int), r)
    | none => none
  | c :: rest =>
    match digitVal c with
    | some d =>
      match parseNatLoop d rest with
      | (v, r) => some ((v : Int), r)
    | none => none
  | [] => none

/-- Modelled from the spec: the external serde_json layer decoding the
rate-limit body (the spec's "small JSON structure carrying a millisecond
absolute reset timestamp and a millisecond reset-after duration"). Parses
the fields of a flat JSON object with string keys and integer values and
returns them in order; anything else is a decode failure, as it would be for
the two integer fields of `BeatSaverRateLimit`. Fuel bounds the number of
fields; the input length suffices. -/
def parseFields : Nat → List Nat → Option (List (List Nat × Int))
  | 0, _ => none
  | fuel + 1, s =>
    match skipWs s with
    | 0x22 :: rest =>
      match parseKey rest with
      | none => none
      | some (key, rest1) =>
        match skipWs rest1 with
        | 0x3A :: rest2 =>
          match parseInt (skipWs rest2) with
          | none => none
          | some (v, rest3) =>
            match skipWs rest3 with
            | 0x2C :: rest4 => (parseFields fuel rest4).map ((key, v) :: ·)
            | 0x7D :: rest4 => if (skipWs rest4).isEmpty then some [(key, v)] else none
            | _ => none
        | _ => none
    | _ => none

/-- Modelled from the spec: a whole JSON object document (the external
serde_json layer), returning the key/value list. -/
def parseRateLimitObj (s : List Nat) : Option (List (List Nat × Int)) :=
  match skipWs s with
  | 0x7B :: rest =>
    match skipWs rest with
    | 0x7D :: rest1 => if (skipWs rest1).isEmpty then some [] else none
    | _ => parseFields (rest.length + 1) rest
  | _ => none

/-- Codepoints of a Lean string, for writing concrete ASCII bodies. -/
def str2cp (s : String) : List Nat := s.data.map Char.toNat

def lookupField (fields : List (List Nat × Int)) (name : List Nat) : Option Int :=
  match fields with
  | [] => none
  | (k, v) :: rest => if k = name then some v else lookupField rest name

/-- `from_timestamp` (`src/lib.rs` lines 104-128) applied to a JSON integer:
serde_json dispatches a nonnegative value below 2^64 to `visit_u64`, which
reinterprets it `as i64` (wrapping), and a negative value down to -2^63 to
`visit_i64`; values outside either range do not deserialize as an integer. -/
def decodeTimestamp (v : Int) : Option DateTimeUtc :=
  if 0 ≤ v ∧ v < 2 ^ 64 then
    some (DateTimeVisitor.fromMillis (if v < 2 ^ 63 then v else v - 2 ^ 64))
  else if -(2 ^ 63) ≤ v ∧ v < 0 then
    some (DateTimeVisitor.fromMillis v)
  else none

/-- `from_duration` (`src/lib.rs` lines 130-163) applied to a JSON integer:
`visit_u64` takes the value directly, `visit_i64` reinterprets it `as u64`
(wrapping). -/
def decodeDuration (v : Int) : Option Duration :=
  if 0 ≤ v ∧ v < 2 ^ 64 then some ⟨v.toNat⟩
  else if -(2 ^ 63) ≤ v ∧ v < 0 then some ⟨(v + 2 ^ 64).toNat⟩
  else none

/-- Deserializing `BeatSaverRateLimit` (`src/lib.rs` lines 165-174) from the
decoded body text: the `reset` field keeps its name, `reset_after` also
accepts the wire name `resetAfter` (its serde alias); both must be present. -/
def deserializeRateLimit (s : List Nat) : Option BeatSaverRateLimit :=
  match parseRateLimitObj s with
  | none => none
  | some fields =>
    match lookupField fields (str2cp "reset") with
    | none => none
    | some r =>
      match decodeTimestamp r with
      | none => none
      | some reset =>
        match (lookupField fields (str2cp "resetAfter")).orElse
            (fun _ => lookupField fields (str2cp "reset_after")) with
        | none => none
        | some ra =>
          match decodeDuration ra with
          | none => none
          | some d => some ⟨reset, d⟩

/-- `rate_limit` from `src/lib.rs` lines 176-187: decode the 429 body as
UTF-8 (failure returns the error via `From<FromUtf8Error>` as `Utf8Error`),
then deserialize `BeatSaverRateLimit` (failure returns `SerializeError` via
`From<serde_json::Error>`), else wrap the value in `RateLimitError`. -/
def rate_limit (data : List Nat) : BeatSaverApiError ε :=
  match utf8Decode data with
  | none => .Utf8Error
  | some s =>
    match deserializeRateLimit s with
    | none => .SerializeError
    | some limit => .RateLimitError limit

/-- `BeatSaverReqwest::request_raw` (`src/client.rs` lines 55-70) once the
transport has produced a response with `status` and body `data`: status 429
(`StatusCode::TOO_MANY_REQUESTS`) goes through `rate_limit`, every other
status passes the bytes through unchanged. The `?` on `send()`/`bytes()`
is the external reqwest transport failing before a response exists. -/
def BeatSaverReqwest.request_raw (status : Nat) (data : List Nat) :
    Except (BeatSaverApiError ε) (List Nat) :=
  if status == 429 then .error (rate_limit data) else .ok data

/-- `BeatSaverSurf::request_raw` (`src/client.rs` lines 148-162): the
identical classification applied after the surf response arrived. -/
def BeatSaverSurf.request_raw (status : Nat) (data : List Nat) :
    Except (BeatSaverApiError ε) (List Nat) :=
  if status == 429 then .error (rate_limit data) else .ok data

/-- Outcome of `ureq::get(..).call()` as matched by
`BeatSaverUreq::request_raw`: success with a body, `Error::Status(code,
resp)` with a body, or another transport error. -/
inductive UreqOutcome (ε : Type) where
  | ok (data : List Nat)
  | status (code : Nat) (data : List Nat)
  | err (e : ε)

/-- `BeatSaverUreq::request_raw` (`src/client.rs` lines 206-230): success
returns the body; on the `Error::Status(code, resp)` arm only code 429 goes
through `rate_limit` and every other code returns the body; other transport
errors become `RequestError`. (`read_to_end` is assumed to succeed; its
`IoError` path is external IO.) -/
def BeatSaverUreq.request_raw : UreqOutcome ε → Except (BeatSaverApiError ε) (List Nat)
  | .ok data => .ok data
  | .status code data => if code == 429 then .error (rate_limit data) else .ok data
  | .err e => .error (.RequestError e)

/-- The body `\x7b"reset": 1700000000000, "resetAfter": 5000\x7d` as bytes
(it is pure ASCII, so bytes coincide with codepoints). -/
def rateLimitBody : List Nat :=
  str2cp "\x7b\"reset\": 1700000000000, \"resetAfter\": 5000\x7d"

/-- The cases of Rust `std::num::IntErrorKind` reachable from
`usize::from_str_radix`. -/
inductive IntErrorKind where
  | Empty
  | InvalidDigit
  | PosOverflow
deriving DecidableEq

/-- `char::to_digit(16)`: the value of a hexadecimal digit (0-9, a-f, A-F). -/
def hexVal (c : Char) : Option Nat :=
  if 0x30 ≤ c.toNat ∧ c.toNat ≤ 0x39 then some (c.toNat - 0x30)
  else if 0x61 ≤ c.toNat ∧ c.toNat ≤ 0x66 then some (c.toNat - 0x61 + 10)
  else if 0x41 ≤ c.toNat ∧ c.toNat ≤ 0x46 then some (c.toNat - 0x41 + 10)
  else none

/-- The digit loop of `usize::from_str_radix` at radix 16 on a 64-bit
target: each character must be a hex digit (otherwise `InvalidDigit`), and
the `checked_mul`/`checked_add` steps fail with `PosOverflow` as soon as the
accumulator would leave the usize range. -/
def fromStrRadixLoop : List Char → Nat → Except IntErrorKind Nat
  | [], acc => .ok acc
  | c :: cs, acc =>
    match hexVal c with
    | none => .error .InvalidDigit
    | some d =>
      if 2 ^ 64 ≤ acc * 16 then .error .PosOverflow
      else if 2 ^ 64 ≤ acc * 16 + d then .error .PosOverflow
      else fromStrRadixLoop cs (acc * 16 + d)

/-- `usize::from_str_radix(s, 16)`: the empty string is `Empty`; one leading
`+` sign is accepted (`-` is not, usize being unsigned); after the optional
sign at least one digit must follow (`InvalidDigit` otherwise). -/
def from_str_radix16 (s : List Char) : Except IntErrorKind Nat :=
  match s with
  | [] => .error .Empty
  | c :: cs =>
    match if c = '+' then cs else c :: cs with
    | [] => .error .InvalidDigit
    | ds => fromStrRadixLoop ds 0

/-- The digits examined by `from_str_radix16`: the input minus one optional
leading `+`. -/
def stripPlus : List Char → List Char
  | [] => []
  | c :: cs => if c = '+' then cs else c :: cs

/-- `hex::decode` on a string: pairs of hex digits become bytes; fails on a
non-hex character or an odd length. -/
def hexDecode : List Char → Option (List Nat)
  | [] => some []
  | [_] => none
  | c1 :: c2 :: rest =>
    match hexVal c1, hexVal c2 with
    | some v1, some v2 => (hexDecode rest).map ((v1 * 16 + v2) :: ·)
    | _, _ => none

/-- Byte length of a string in UTF-8, Rust's `str::len`. -/
def strByteLen (s : String) : Nat := (s.data.map Char.utf8Size).sum

/-- `MapIdError` from `src/lib.rs` lines 189-204. -/
inductive MapIdError where
  | InvalidHash
  | ParseIntError (e : IntErrorKind)
deriving DecidableEq

/-- `MapId` from `src/lib.rs` lines 225-232. -/
inductive MapId where
  | Key (k : Nat)
  | Hash (s : String)
deriving DecidableEq

/-- `TryFrom<String> for MapId` (`src/lib.rs` lines 233-245): a byte length
of exactly 40 validates through `hex::decode` (failure `InvalidHash`) and
keeps the string as a `Hash`; any other length goes through
`usize::from_str_radix(s, 16)` into a `Key`. The `TryFrom<&str>` impl at
lines 246-252 delegates here. -/
def MapId.try_from (s : String) : Except MapIdError MapId :=
  if strByteLen s = 40 then
    match hexDecode s.data with
    | none => .error .InvalidHash
    | some _ => .ok (.Hash s)
  else
    match from_str_radix16 s.data with
    | .error e => .error (.ParseIntError e)
    | .ok k => .ok (.Key k)

/-- `BeatSaverUser` from `src/lib.rs` lines 61-68: the id (24-char hex
account id) and the username. -/
structure BeatSaverUser where
  id : String
  username : String
deriving DecidableEq

/-- The `#[derive(PartialEq)]` on `BeatSaverUser` (`src/lib.rs` line 61):
the derived instance compares every field of the struct. -/
def BeatSaverUser.eq (a b : BeatSaverUser) : Bool :=
  a.id == b.id && a.username == b.username

/-- `BeatSaverApiSync::user` (`src/sync_api/mod.rs` lines 282-293): an id
whose byte length is not 24 or that `hex::decode` rejects produces
`ArgumentError("id")` before anything else runs; otherwise the response of
`api/users/find/{id}` is fetched and deserialized. The transport
(`self.request`) and the external serde_json decode of the response body are
abstract parameters. -/
def BeatSaverApiSync.user (request : String → Except (BeatSaverApiError ε) String)
    (decodeUser : String → Except (BeatSaverApiError ε) BeatSaverUser)
    (id : String) : Except (BeatSaverApiError ε) BeatSaverUser :=
  if strByteLen id ≠ 24 ∨ hexDecode id.data = none then
    .error (.ArgumentError "id")
  else
    match request ("api/users/find/" ++ id) with
    | .error e => .error e
    | .ok data => decodeUser data

/-- `BeatSaverApiAsync::user` (`src/async_api/mod.rs` lines 245-255): the
identical validation and request, with the future layer erased. -/
def BeatSaverApiAsync.user (request : String → Except (BeatSaverApiError ε) String)
    (decodeUser : String → Except (BeatSaverApiError ε) BeatSaverUser)
    (id : String) : Except (BeatSaverApiError ε) BeatSaverUser :=
  if strByteLen id ≠ 24 ∨ hexDecode id.data = none then
    .error (.ArgumentError "id")
  else
    match request ("api/users/find/" ++ id) with
    | .error e => .error e
    | .ok data => decodeUser data

/-- `MapDifficulties` from `src/map.rs` lines 7-14. -/
structure MapDifficulties where
  easy : Bool
  normal : Bool
  hard : Bool
  expert : Bool
  expert_plus : Bool

/-- `MapDifficltyCharacteristic` from `src/map.rs` lines 16-26 (the f32
fields are `Float`; no claim computes with them). -/
structure MapDifficltyCharacteristic where
  duration : Float
  length : Nat
  njs : Nat
  njs_offset : Int
  bombs : Nat
  notes : Nat
  obstacles : Nat

/-- `MapDifficultyCharacteristics` from `src/map.rs` lines 28-36. -/
structure MapDifficultyCharacteristics where
  easy : Option MapDifficltyCharacteristic
  normal : Option MapDifficltyCharacteristic
  hard : Option MapDifficltyCharacteristic
  expert : Option MapDifficltyCharacteristic
  expert_plus : Option MapDifficltyCharacteristic

/-- `MapCharacteristics` from `src/map.rs` lines 38-42. -/
structure MapCharacteristics where
  difficulties : MapDifficultyCharacteristics
  name : String

/-- `MapMetadata` from `src/map.rs` lines 44-59. -/
structure MapMetadata where
  difficulties : MapDifficulties
  duration : Nat
  automapper : Option String
  characteristics : List MapCharacteristics
  level_author : String
  song_author : String
  song_name : String
  song_sub_name : String
  bpm : Nat

/-- `MapStats` from `src/map.rs` lines 61-71. -/
structure MapStats where
  downloads : Nat
  plays : Nat
  downvotes : Nat
  upvotes : Nat
  heat : Float
  rating : Float

/-- `Map` from `src/map.rs` lines 73-91. -/
structure Map where
  metadata : MapMetadata
  stats : MapStats
  description : String
  id : String
  key : String
  name : String
  uploader : BeatSaverUser
  hash : String
  uploaded : DateTimeUtc
  direct_download : String
  download : String
  cover : String

/-- `impl Into<MapId> for Map` (`src/lib.rs` lines 253-257). -/
def Map.intoMapId (m : Map) : MapId := .Hash m.hash

/-- `impl Into<MapId> for &Map` (`src/lib.rs` lines 258-262); the borrow
and the `clone()` are identities in the embedding. -/
def Map.refIntoMapId (m : Map) : MapId := .Hash m.hash

/-- One lowercase hex digit. -/
def hexDigitChar (n : Nat) : Char :=
  if n < 10 then Char.ofNat (0x30 + n) else Char.ofNat (0x57 + n)

/-- Hex digits of a positive number, most significant first. -/
def toHexAux : Nat → List Char
  | 0 => []
  | n + 1 => toHexAux ((n + 1) / 16) ++ [hexDigitChar ((n + 1) % 16)]
decreasing_by exact Nat.div_lt_self (Nat.succ_pos n) (by omega)

/-- Lowercase hexadecimal rendering of a usize, Rust's `{:x}` format
(0 prints "0"). -/
def formatHexKey (k : Nat) : String :=
  if k = 0 then "0" else ⟨toHexAux k⟩

/-- The download URL path built by `download` (`src/sync_api/mod.rs` lines
399-411 and `src/async_api/mod.rs` lines 348-359): numeric keys are rendered
in lowercase hex under `api/download/key/`, hashes verbatim under
`api/download/hash/`. -/
def downloadPath : MapId → String
  | .Key k => "api/download/key/" ++ formatHexKey k
  | .Hash h => "api/download/hash/" ++ h

theorem syncSeq_eq_next (fetch : Nat → Except ε (Page α)) (fuel : Nat) (curr : Page α) :
    syncSeq fetch fuel curr =
      match PageIterator.next fetch fuel curr with
      | (.item r, f, c) => r :: syncSeq fetch f c
      | _ => [] := by
  induction fuel generalizing curr with
  | zero =>
    obtain ⟨ds, t, l, pp, np⟩ := curr
    cases ds with
    | cons d rest => simp [syncSeq, PageIterator.next]
    | nil => cases np <;> simp [syncSeq, PageIterator.next]
  | succ f ih =>
    obtain ⟨ds, t, l, pp, np⟩ := curr
    cases ds with
    | cons d rest => simp [syncSeq, PageIterator.next]
    | nil =>
      cases np with
      | none => simp [syncSeq, PageIterator.next]
      | some n =>
        cases hf : fetch n with
        | ok p => simpa [syncSeq, PageIterator.next, hf] using ih p
        | error e => simp [syncSeq, PageIterator.next, hf]

theorem iterate_pageSeq_none (fetch : Nat → Except ε (Page α)) (fuel : Nat) :
    iterate_pageSeq fetch fuel none = [] := by
  cases fuel <;> simp [iterate_pageSeq, iterate_pageStep]

/-- Core correspondence between the two pagination variants: from a sync
state holding docs `ds` and next-page pointer `np`, the blocking iterator
yields exactly the remaining docs followed by whatever the async unfold
produces from `np`, for every fetch budget. -/
theorem syncSeq_eq_iterate (fetch : Nat → Except ε (Page α)) (fuel : Nat)
    (ds : List α) (t l : Nat) (pp np : Option Nat) :
    syncSeq fetch fuel ⟨ds, t, l, pp, np⟩ =
      ds.map .ok ++ iterate_pageSeq fetch fuel np := by
  induction fuel generalizing ds t l pp np with
  | zero =>
    induction ds with
    | nil => cases np <;> simp [syncSeq, iterate_pageSeq]
    | cons d rest ih => simp [syncSeq, ih]
  | succ f ihf =>
    induction ds with
    | nil =>
      cases np with
      | none => simp [syncSeq, iterate_pageSeq, iterate_pageStep]
      | some n =>
        cases hf : fetch n with
        | ok p =>
          obtain ⟨pds, pt, pl, ppp, pnp⟩ := p
          simp [syncSeq, iterate_pageSeq, iterate_pageStep, hf, ihf]
        | error e =>
          have h0 := ihf ([] : List α) t l pp (some n)
          simp [syncSeq, iterate_pageSeq, iterate_pageStep, hf, h0]
    | cons d rest ih => simp [syncSeq, ih]

theorem fetchChain_iterate (fetch : Nat → Except ε (Page α)) (fuel n : Nat)
    (ps : List (Page α)) (h : fetchChain fetch fuel n = some ps) :
    iterate_pageSeq fetch fuel (some n) = ((ps.map Page.docs).flatten).map .ok := by
  induction fuel generalizing n ps with
  | zero => simp [fetchChain] at h
  | succ f ih =>
    cases hf : fetch n with
    | error e => simp [fetchChain, hf] at h
    | ok p =>
      cases hnp : p.next_page with
      | none =>
        simp [fetchChain, hf, hnp] at h
        subst h
        simp [iterate_pageSeq, iterate_pageStep, hf, hnp, iterate_pageSeq_none]
      | some m =>
        cases hc : fetchChain fetch f m with
        | none => simp [fetchChain, hf, hnp, hc] at h
        | some qs =>
          simp [fetchChain, hf, hnp, hc] at h
          subst h
          simp [iterate_pageSeq, iterate_pageStep, hf, hnp, ih m qs hc]

/-- C1: the spec's fail-stop policy fails on the code. With a fetch that
always fails, two pulls of the sync iterator from the start page yield two
error elements (not one error and then the end), and after the call that
yields the error a further call consumes another unit of fuel, i.e. performs
another fetch; the async stream likewise emits an error chunk on every
unfold step. -/
theorem fetch_error_retries_counterexample :
    syncSeq (fun _ => Except.error () : Nat → Except Unit (Page Nat)) 2 (startPage Nat 0) =
      [Except.error (), Except.error ()] ∧
    syncSeq (fun _ => Except.error () : Nat → Except Unit (Page Nat)) 2 (startPage Nat 0) ≠
      [Except.error ()] ∧
    iterate_pageSeq (fun _ => Except.error () : Nat → Except Unit (Page Nat)) 2 (some 0) =
      [Except.error (), Except.error ()] ∧
    PageIterator.next (fun _ => Except.error () : Nat → Except Unit (Page Nat)) 5 (startPage Nat 0) =
      (.item (.error ()), 4, startPage Nat 0) ∧
    PageIterator.next (fun _ => Except.error () : Nat → Except Unit (Page Nat)) 4 (startPage Nat 0) =
      (.item (.error ()), 3, startPage Nat 0) := by
  refine ⟨?_, ?_, ?_, ?_, ?_⟩ <;>
    simp [syncSeq, iterate_pageSeq, iterate_pageStep, PageIterator.next, startPage]

/-- C1 (amended): when the fetch for page `n` fails, both variants yield
that error as the next element but leave the page cursor on page `n`: the
sync iterator returns `Some(Err(e))` with `self.curr` unchanged, and the
async unfold emits the error chunk with next state `Some(n)`. A consumer
that keeps pulling therefore triggers a fresh fetch of the same page instead
of observing the end of the sequence. -/
theorem fetch_error_yields_error_and_keeps_cursor
    (fetch : Nat → Except ε (Page α)) (n : Nat) (e : ε) (fuel t l : Nat)
    (pp : Option Nat) (hf : fetch n = .error e) :
    PageIterator.next fetch (fuel + 1) ⟨[], t, l, pp, some n⟩ =
      (.item (.error e), fuel, ⟨[], t, l, pp, some n⟩) ∧
    iterate_pageStep fetch (some n) = some ([.error e], some n) := by
  constructor <;> simp [PageIterator.next, iterate_pageStep, hf]

theorem fetch_error_yields_error_and_keeps_cursor_witness :
    ((fun _ => Except.error () : Nat → Except Unit (Page Nat)) 0 = .error ()) ∧
    (PageIterator.next (fun _ => Except.error () : Nat → Except Unit (Page Nat)) 3
        ⟨[], 0, 0, none, some 0⟩ = (.item (.error ()), 2, ⟨[], 0, 0, none, some 0⟩) ∧
      iterate_pageStep (fun _ => Except.error () : Nat → Except Unit (Page Nat)) (some 0) =
        some ([.error ()], some 0)) :=
  ⟨rfl, fetch_error_yields_error_and_keeps_cursor
    (fun _ => Except.error ()) 0 () 2 0 0 none rfl⟩

/-- C2: for a fetch function whose chain of pages from the start page is
finite and error-free, both pagination sequences equal the front-to-back
concatenation of each page's docs in fetch order; pages with empty docs and
a Some next-page index (also several in a row) contribute nothing and cause
no error or early end. -/
theorem pagination_seq_is_concat_of_docs
    (fetch : Nat → Except ε (Page α)) (fuel start : Nat) (ps : List (Page α))
    (h : fetchChain fetch fuel start = some ps) :
    syncSeq fetch fuel (startPage α start) = ((ps.map Page.docs).flatten).map .ok ∧
    iterate_pageSeq fetch fuel (some start) = ((ps.map Page.docs).flatten).map .ok := by
  have ha := fetchChain_iterate fetch fuel start ps h
  have hs := syncSeq_eq_iterate fetch fuel [] 0 0 none (some start)
  exact ⟨by simpa [startPage, ha] using hs, ha⟩

theorem pagination_seq_is_concat_of_docs_witness :
    fetchChain
        (fun n => match n with
          | 0 => .ok ⟨[1, 2], 9, 9, none, some 1⟩
          | 1 => .ok ⟨[], 9, 9, some 0, some 2⟩
          | 2 => .ok ⟨[], 9, 9, some 1, some 3⟩
          | 3 => .ok ⟨[7], 9, 9, some 2, none⟩
          | _ => .error () : Nat → Except Unit (Page Nat)) 4 0 =
      some [⟨[1, 2], 9, 9, none, some 1⟩, ⟨[], 9, 9, some 0, some 2⟩,
        ⟨[], 9, 9, some 1, some 3⟩, ⟨[7], 9, 9, some 2, none⟩] ∧
    (syncSeq
        (fun n => match n with
          | 0 => .ok ⟨[1, 2], 9, 9, none, some 1⟩
          | 1 => .ok ⟨[], 9, 9, some 0, some 2⟩
          | 2 => .ok ⟨[], 9, 9, some 1, some 3⟩
          | 3 => .ok ⟨[7], 9, 9, some 2, none⟩
          | _ => .error () : Nat → Except Unit (Page Nat)) 4 (startPage Nat 0) =
      (([⟨[1, 2], 9, 9, none, some 1⟩, ⟨[], 9, 9, some 0, some 2⟩,
        ⟨[], 9, 9, some 1, some 3⟩,
        (⟨[7], 9, 9, some 2, none⟩ : Page Nat)].map Page.docs).flatten).map .ok ∧
      iterate_pageSeq
        (fun n => match n with
          | 0 => .ok ⟨[1, 2], 9, 9, none, some 1⟩
          | 1 => .ok ⟨[], 9, 9, some 0, some 2⟩
          | 2 => .ok ⟨[], 9, 9, some 1, some 3⟩
          | 3 => .ok ⟨[7], 9, 9, some 2, none⟩
          | _ => .error () : Nat → Except Unit (Page Nat)) 4 (some 0) =
      (([⟨[1, 2], 9, 9, none, some 1⟩, ⟨[], 9, 9, some 0, some 2⟩,
        ⟨[], 9, 9, some 1, some 3⟩,
        (⟨[7], 9, 9, some 2, none⟩ : Page Nat)].map Page.docs).flatten).map .ok) :=
  ⟨rfl, pagination_seq_is_concat_of_docs _ 4 0 _ rfl⟩

/-- C3: for the same fetch function (a deterministic map from page index to
a page or an error) and the same start page, the blocking PageIterator and
the stream built by iterate_page produce the identical sequence of Result
elements in identical order, for every fetch budget. -/
theorem sync_async_same_sequence (fetch : Nat → Except ε (Page α)) (fuel start : Nat) :
    syncSeq fetch fuel (startPage α start) = iterate_pageSeq fetch fuel (some start) := by
  simpa [startPage] using syncSeq_eq_iterate fetch fuel [] 0 0 none (some start)

/-- C5: from a page whose next_page is None, the sync iterator yields the
remaining docs and then reports the end with its fuel untouched (no fetch is
invoked: fuel is spent exactly on fetches, and the result holds for every
fetch function), and the async unfold returns None, ending the stream. -/
theorem terminal_page_ends_sequence (fetch : Nat → Except ε (Page α)) (fuel : Nat)
    (ds : List α) (t l : Nat) (pp : Option Nat) :
    syncSeq fetch fuel ⟨ds, t, l, pp, none⟩ = ds.map .ok ∧
    PageIterator.next fetch fuel ⟨[], t, l, pp, none⟩ =
      (.done, fuel, ⟨[], t, l, pp, none⟩) ∧
    iterate_pageStep fetch none = none ∧
    iterate_pageSeq fetch fuel none = [] := by
  refine ⟨?_, ?_, rfl, iterate_pageSeq_none fetch fuel⟩
  · simpa [iterate_pageSeq_none] using syncSeq_eq_iterate fetch fuel ds t l pp none
  · cases fuel <;> simp [PageIterator.next]

/-- C4: every transport backend's request_raw turns a 429 response with the
body `\x7b"reset": 1700000000000, "resetAfter": 5000\x7d` into a
`RateLimitError` whose reset_after is 5000 milliseconds (and whose reset is
the instant 1700000000 s), and passes the same body through unmodified when
the status is not 429 (200, a non-429 ureq error status, or a plain ureq
success). -/
theorem request_raw_classifies_429 (ε : Type) :
    BeatSaverReqwest.request_raw (ε := ε) 429 rateLimitBody =
      .error (.RateLimitError ⟨⟨1700000000, 0⟩, ⟨5000⟩⟩) ∧
    BeatSaverSurf.request_raw (ε := ε) 429 rateLimitBody =
      .error (.RateLimitError ⟨⟨1700000000, 0⟩, ⟨5000⟩⟩) ∧
    BeatSaverUreq.request_raw (ε := ε) (.status 429 rateLimitBody) =
      .error (.RateLimitError ⟨⟨1700000000, 0⟩, ⟨5000⟩⟩) ∧
    BeatSaverReqwest.request_raw (ε := ε) 200 rateLimitBody = .ok rateLimitBody ∧
    BeatSaverSurf.request_raw (ε := ε) 200 rateLimitBody = .ok rateLimitBody ∧
    BeatSaverUreq.request_raw (ε := ε) (.status 404 rateLimitBody) = .ok rateLimitBody ∧
    BeatSaverUreq.request_raw (ε := ε) (.ok rateLimitBody) = .ok rateLimitBody := by
  refine ⟨?_, ?_, ?_, ?_, ?_, ?_, ?_⟩ <;> rfl

/-- C8: rate_limit is total and never silently defaults: a body that is not
valid UTF-8 yields the Utf8Error variant, a valid-UTF-8 body that does not
deserialize as the rate-limit structure yields SerializeError, a body that
deserializes yields RateLimitError carrying it — and these three variants
are the only possible outcomes. -/
theorem rate_limit_classification (ε : Type) (data : List Nat) :
    (utf8Decode data = none → rate_limit (ε := ε) data = .Utf8Error) ∧
    (∀ s, utf8Decode data = some s → deserializeRateLimit s = none →
      rate_limit (ε := ε) data = .SerializeError) ∧
    (∀ s limit, utf8Decode data = some s → deserializeRateLimit s = some limit →
      rate_limit (ε := ε) data = .RateLimitError limit) ∧
    (rate_limit (ε := ε) data = .Utf8Error ∨
      rate_limit (ε := ε) data = .SerializeError ∨
      ∃ limit, rate_limit (ε := ε) data = .RateLimitError limit) := by
  refine ⟨fun hu => by simp [rate_limit, hu],
    fun s hu hd => by simp [rate_limit, hu, hd],
    fun s limit hu hd => by simp [rate_limit, hu, hd], ?_⟩
  cases hu : utf8Decode data with
  | none => exact .inl (by simp [rate_limit, hu])
  | some s =>
    cases hd : deserializeRateLimit s with
    | none => exact .inr (.inl (by simp [rate_limit, hu, hd]))
    | some limit => exact .inr (.inr ⟨limit, by simp [rate_limit, hu, hd]⟩)

theorem rate_limit_classification_witness :
    (utf8Decode [0xFF] = none ∧ rate_limit (ε := Unit) [0xFF] = .Utf8Error) ∧
    (utf8Decode (str2cp "nope") = some (str2cp "nope") ∧
      deserializeRateLimit (str2cp "nope") = none ∧
      rate_limit (ε := Unit) (str2cp "nope") = .SerializeError) ∧
    (utf8Decode rateLimitBody = some (str2cp
        "\x7b\"reset\": 1700000000000, \"resetAfter\": 5000\x7d") ∧
      rate_limit (ε := Unit) rateLimitBody =
        .RateLimitError ⟨⟨1700000000, 0⟩, ⟨5000⟩⟩) :=
  ⟨⟨by rfl, (rate_limit_classification Unit [0xFF]).1 (by rfl)⟩,
   ⟨by rfl, by rfl, (rate_limit_classification Unit (str2cp "nope")).2.1 _ (by rfl) (by rfl)⟩,
   ⟨by rfl, (rate_limit_classification Unit rateLimitBody).2.2.1 _ _ (by rfl) (by rfl)⟩⟩

theorem fromStrRadixLoop_error (cs : List Char) (acc : Nat)
    (h : ∃ c ∈ cs, hexVal c = none) :
    ∃ e, fromStrRadixLoop cs acc = .error e := by
  induction cs generalizing acc with
  | nil => simp at h
  | cons c cs ih =>
    cases hc : hexVal c with
    | none => exact ⟨.InvalidDigit, by simp [fromStrRadixLoop, hc]⟩
    | some d =>
      obtain ⟨c0, hc0, h0⟩ := h
      simp only [List.mem_cons] at hc0
      rcases hc0 with rfl | hmem
      · simp [h0] at hc
      · rw [fromStrRadixLoop]
        simp only [hc]
        split
        · exact ⟨.PosOverflow, rfl⟩
        · split
          · exact ⟨.PosOverflow, rfl⟩
          · exact ih (acc * 16 + d) ⟨c0, hmem, h0⟩

theorem hexDecode_none (cs : List Char) (h : ∃ c ∈ cs, hexVal c = none) :
    hexDecode cs = none := by
  induction cs using hexDecode.induct with
  | case1 => simp at h
  | case2 => rfl
  | case3 c1 c2 rest v1 v2 h2 h1 ih =>
    obtain ⟨c0, hc0, h0⟩ := h
    simp only [List.mem_cons] at hc0
    rcases hc0 with rfl | rfl | hmem
    · simp [h0] at h1
    · simp [h0] at h2
    · simp [hexDecode, h1, h2, ih ⟨c0, hmem, h0⟩]
  | case4 c1 c2 rest hbad =>
    cases hv1 : hexVal c1 <;> cases hv2 : hexVal c2 <;> simp_all [hexDecode]

theorem hexDecode_isSome (cs : List Char) (hhex : ∀ c ∈ cs, (hexVal c).isSome)
    (heven : cs.length % 2 = 0) : (hexDecode cs).isSome := by
  induction cs using hexDecode.induct with
  | case1 => simp [hexDecode]
  | case2 c => simp at heven
  | case3 c1 c2 rest v1 v2 h2 h1 ih =>
    have hev : rest.length % 2 = 0 := by simp at heven; omega
    have h' := ih (fun c hc => hhex c (by simp [hc])) hev
    simpa [hexDecode, h1, h2] using h'
  | case4 c1 c2 rest hbad =>
    have hv1 := hhex c1 (by simp)
    have hv2 := hhex c2 (by simp)
    cases hx1 : hexVal c1 with
    | none => simp [hx1] at hv1
    | some v1 =>
      cases hx2 : hexVal c2 with
      | none => simp [hx2] at hv2
      | some v2 => exact (hbad v1 v2 hx1 hx2).elim

/-- A character with a hex value is ASCII, so it occupies one UTF-8 byte. -/
theorem utf8Size_of_hexVal (c : Char) (h : (hexVal c).isSome) :
    Char.utf8Size c = 1 := by
  have hle : c.toNat ≤ 0x7F := by
    rw [hexVal] at h
    split at h
    · next hc => omega
    · split at h
      · next hc => omega
      · split at h
        · next hc => omega
        · simp at h
  rw [Char.utf8Size]
  have hv : c.val ≤ (0x7F : UInt32) := hle
  simp [hv]

/-- C6: the claim's error clause fails on the code: "+2144" has byte length
5 (not 40) and contains the non-hex character '+', yet
`usize::from_str_radix` accepts one leading plus sign, so `MapId::try_from`
returns Ok(Key(0x2144)) instead of a typed error. -/
theorem mapid_plus_sign_counterexample :
    MapId.try_from "+2144" = .ok (.Key 8516) ∧
    strByteLen "+2144" = 5 ∧
    '+' ∈ "+2144".data ∧
    hexVal '+' = none := by
  refine ⟨by rfl, by rfl, by decide, by rfl⟩

/-- C6 (amended): MapId::try_from on a string: every input of exactly 40
valid hexadecimal characters yields Ok(Hash(input)); "2144" yields
Ok(Key(0x2144)); every input of length other than 40 that contains, beyond
one optional leading '+', a non-hex character yields a typed MapIdError
(ParseIntError) — the leading plus sign being the one non-hex character
usize::from_str_radix accepts; and try_from is total, returning Ok or a
typed error on every input, never panicking. -/
theorem mapid_try_from_amended :
    (∀ s : String, s.data.length = 40 → (∀ c ∈ s.data, (hexVal c).isSome) →
      MapId.try_from s = .ok (.Hash s)) ∧
    MapId.try_from "2144" = .ok (.Key 8516) ∧
    (∀ s : String, strByteLen s ≠ 40 →
      (∃ c ∈ stripPlus s.data, hexVal c = none) →
      ∃ e, MapId.try_from s = .error (.ParseIntError e)) ∧
    (∀ s : String, (∃ m, MapId.try_from s = .ok m) ∨
      (∃ e, MapId.try_from s = .error e)) := by
  refine ⟨?_, by rfl, ?_, ?_⟩
  · intro s hlen hhex
    have hones : ∀ c ∈ s.data, Char.utf8Size c = 1 :=
      fun c hc => utf8Size_of_hexVal c (hhex c hc)
    have hbyte : strByteLen s = 40 := by
      rw [strByteLen, List.map_congr_left hones]
      simp [List.map_const', hlen]
    rw [MapId.try_from, if_pos hbyte]
    obtain ⟨bs, hbs⟩ := Option.isSome_iff_exists.mp
      (hexDecode_isSome s.data hhex (by omega))
    simp [hbs]
  · intro s hlen hbad
    rw [MapId.try_from, if_neg hlen]
    cases hsd : s.data with
    | nil => rw [hsd] at hbad; simp [stripPlus] at hbad
    | cons c cs =>
      rw [hsd] at hbad
      cases hds : stripPlus (c :: cs) with
      | nil => rw [hds] at hbad; simp at hbad
      | cons d ds =>
        obtain ⟨e, he⟩ := fromStrRadixLoop_error (d :: ds) 0 (hds ▸ hbad)
        refine ⟨e, ?_⟩
        have hds2 : (if c = '+' then cs else c :: cs) = d :: ds := hds
        simp only [from_str_radix16]
        rw [hds2]
        simp [he]
  · intro s
    cases h : MapId.try_from s with
    | ok m => exact .inl ⟨m, rfl⟩
    | error e => exact .inr ⟨e, rfl⟩

theorem mapid_try_from_amended_witness :
    ("fda568fc27c20d21f8dc6f3709b49b5cc96723be".data.length = 40 ∧
      MapId.try_from "fda568fc27c20d21f8dc6f3709b49b5cc96723be" =
        .ok (.Hash "fda568fc27c20d21f8dc6f3709b49b5cc96723be")) ∧
    (strByteLen "xyz" ≠ 40 ∧
      ∃ e, MapId.try_from "xyz" = .error (.ParseIntError e)) :=
  ⟨⟨by decide, mapid_try_from_amended.1 _ (by decide) (by decide)⟩,
   ⟨by decide, mapid_try_from_amended.2.2.1 _ (by decide) (by decide)⟩⟩

/-- C9: equality on BeatSaverUser is not determined by the id alone: the
derived PartialEq also compares the username, so two users with the same id
and different usernames compare unequal (both under the derived `eq` and as
records). -/
theorem user_eq_not_by_id_counterexample :
    BeatSaverUser.eq ⟨"5fbe7cd60192c700062b2a1f", "qwerty01"⟩
      ⟨"5fbe7cd60192c700062b2a1f", "someone"⟩ = false ∧
    (⟨"5fbe7cd60192c700062b2a1f", "qwerty01"⟩ : BeatSaverUser) ≠
      ⟨"5fbe7cd60192c700062b2a1f", "someone"⟩ ∧
    (⟨"5fbe7cd60192c700062b2a1f", "qwerty01"⟩ : BeatSaverUser).id =
      (⟨"5fbe7cd60192c700062b2a1f", "someone"⟩ : BeatSaverUser).id :=
  ⟨by decide, by decide, rfl⟩

/-- C9 (amended): equality on BeatSaverUser is full structural equality:
two users compare equal under the derived PartialEq iff both the id and the
username agree, which coincides with equality of the records. -/
theorem user_eq_iff_fields (a b : BeatSaverUser) :
    (BeatSaverUser.eq a b = true ↔ a.id = b.id ∧ a.username = b.username) ∧
    (BeatSaverUser.eq a b = true ↔ a = b) := by
  obtain ⟨ai, au⟩ := a
  obtain ⟨bi, bu⟩ := b
  constructor
  · simp [BeatSaverUser.eq]
  · simp [BeatSaverUser.eq, BeatSaverUser.mk.injEq]

/-- C7: for every id whose byte length is not 24 or that contains a non-hex
character, the user operation — sync and async — returns ArgumentError, and
it does so for every transport and decoder, i.e. without consulting them
(request_raw is never invoked: the result is a constant independent of the
request function). -/
theorem user_invalid_id_no_request (ε : Type)
    (requestS requestA : String → Except (BeatSaverApiError ε) String)
    (decodeS decodeA : String → Except (BeatSaverApiError ε) BeatSaverUser)
    (id : String)
    (h : strByteLen id ≠ 24 ∨ ∃ c ∈ id.data, hexVal c = none) :
    BeatSaverApiSync.user requestS decodeS id = .error (.ArgumentError "id") ∧
    BeatSaverApiAsync.user requestA decodeA id = .error (.ArgumentError "id") := by
  have hcond : strByteLen id ≠ 24 ∨ hexDecode id.data = none := by
    rcases h with h | h
    · exact .inl h
    · exact .inr (hexDecode_none id.data h)
  constructor
  · rw [BeatSaverApiSync.user, if_pos hcond]
  · rw [BeatSaverApiAsync.user, if_pos hcond]

theorem user_invalid_id_no_request_witness :
    (strByteLen "zzz" ≠ 24 ∨ ∃ c ∈ "zzz".data, hexVal c = none) ∧
    (BeatSaverApiSync.user (ε := Unit) (fun _ => .error .IoError)
        (fun _ => .error .SerializeError) "zzz" = .error (.ArgumentError "id") ∧
      BeatSaverApiAsync.user (ε := Unit) (fun _ => .error .IoError)
        (fun _ => .error .SerializeError) "zzz" = .error (.ArgumentError "id")) :=
  ⟨.inl (by decide),
   user_invalid_id_no_request Unit _ _ _ _ "zzz" (.inl (by decide))⟩

/-- C10: converting a Map (or a reference to one) into a MapId always yields
the Hash variant carrying the map's hash field, never Key, so a download or
lookup through a Map-derived MapId always takes the by-hash path. -/
theorem map_into_mapid_always_hash (m : Map) :
    Map.intoMapId m = .Hash m.hash ∧
    Map.refIntoMapId m = .Hash m.hash ∧
    downloadPath (Map.intoMapId m) = "api/download/hash/" ++ m.hash ∧
    downloadPath (Map.refIntoMapId m) = "api/download/hash/" ++ m.hash :=
  ⟨rfl, rfl, rfl, rfl⟩

end BeatSaverRs
